import Mathlib

/-
Verification of the fehler diagnostic-reporting library against its design
document.  The repository ships only the public header (src/include/fehler.h),
which declares the API surface: the behaviour of every operation is modelled
here from the design document, faithfully to its words, as executable Lean
definitions.  Line and column numbers are 1-based throughout, as the design
document states.
-/

/-- Severity levels, with the numeric identity given in the header
(FATAL=0, ERROR=1, WARN=2, NOTE=3, TODO=4, UNIMPLEMENTED=5). -/
inductive FehlerSeverity where
  | fatal
  | error
  | warn
  | note
  | todo
  | unimplemented
deriving DecidableEq

/-- Output dialect selector, as in the header (FEHLER=0, GCC=1, MSVC=2). -/
inductive FehlerFormat where
  | fehler
  | gcc
  | msvc
deriving DecidableEq

/-- Modelled from the spec: a diagnostic location, either a single point
(zero-width) or a source range; the implementation behind
fehler_diagnostic_set_location / fehler_diagnostic_set_range is not in the
repository sources.  Setting one kind replaces the other, so a diagnostic
holds at most one value of this type. -/
inductive FehlerLocation where
  | point (file : String) (line column : Nat)
  | range (file : String) (startLine startCol endLine endCol : Nat)
deriving DecidableEq

def locFile : FehlerLocation → String
  | .point f _ _ => f
  | .range f _ _ _ _ => f

def locStartLine : FehlerLocation → Nat
  | .point _ l _ => l
  | .range _ sl _ _ _ => sl

def locStartCol : FehlerLocation → Nat
  | .point _ _ c => c
  | .range _ _ sc _ _ => sc

def locEndLine : FehlerLocation → Nat
  | .point _ l _ => l
  | .range _ _ _ el _ => el

def locEndCol : FehlerLocation → Nat
  | .point _ _ c => c
  | .range _ _ _ _ ec => ec

/-- The diagnostic value: severity and message are mandatory at creation,
location, help, code and url are optional and attached by setters. -/
structure FehlerDiagnostic where
  severity : FehlerSeverity
  message : String
  location : Option FehlerLocation
  help : Option String
  code : Option String
  url : Option String
deriving DecidableEq

/-- Modelled from the spec: fehler_diagnostic_create builds a diagnostic from
severity and message with every optional field absent; its body is not in the
repository sources. -/
def fehler_diagnostic_create (severity : FehlerSeverity) (message : String) :
    FehlerDiagnostic :=
  ⟨severity, message, none, none, none, none⟩

/-- Document-order comparison used by the range setter: the end position is
strictly before the start position. -/
def endBeforeStart (sl sc el ec : Nat) : Bool :=
  el < sl || (el = sl && ec < sc)

/-- Modelled from the spec: fehler_diagnostic_set_location fails (returns 0)
exactly when the filename is empty, otherwise stores the point location,
replacing any previous location; its body is not in the repository sources. -/
def fehler_diagnostic_set_location (d : FehlerDiagnostic) (file : String)
    (line column : Nat) : Nat × FehlerDiagnostic :=
  if file = "" then (0, d)
  else (1, { d with location := some (.point file line column) })

/-- Modelled from the spec: fehler_diagnostic_set_range fails (returns 0)
exactly when the filename is empty or the end position is before the start
position in document order, otherwise stores the range, replacing any previous
location; its body is not in the repository sources. -/
def fehler_diagnostic_set_range (d : FehlerDiagnostic) (file : String)
    (sl sc el ec : Nat) : Nat × FehlerDiagnostic :=
  if file = "" || endBeforeStart sl sc el ec then (0, d)
  else (1, { d with location := some (.range file sl sc el ec) })

/-- Modelled from the spec: fehler_diagnostic_set_help copies the help text
into the diagnostic; a null argument (modelled as none) is the only failure;
its body is not in the repository sources. -/
def fehler_diagnostic_set_help (d : FehlerDiagnostic) (help : Option String) :
    Nat × FehlerDiagnostic :=
  match help with
  | none => (0, d)
  | some h => (1, { d with help := some h })

/-- Modelled from the spec: fehler_diagnostic_set_code copies the error code
into the diagnostic; a null argument (modelled as none) is the only failure;
its body is not in the repository sources. -/
def fehler_diagnostic_set_code (d : FehlerDiagnostic) (code : Option String) :
    Nat × FehlerDiagnostic :=
  match code with
  | none => (0, d)
  | some c => (1, { d with code := some c })

/-- Modelled from the spec: fehler_diagnostic_set_url copies the documentation
URL into the diagnostic; a null argument (modelled as none) is the only
failure; its body is not in the repository sources. -/
def fehler_diagnostic_set_url (d : FehlerDiagnostic) (url : Option String) :
    Nat × FehlerDiagnostic :=
  match url with
  | none => (0, d)
  | some u => (1, { d with url := some u })

/-- The reporter owns the source registry (filename to content, most recent
registration first) and the current dialect selection. -/
structure FehlerReporter where
  sources : List (String × String)
  format : FehlerFormat
deriving DecidableEq

/-- Modelled from the spec: fehler_reporter_create yields an empty reporter
with the native dialect; its body is not in the repository sources. -/
def fehler_reporter_create : FehlerReporter :=
  ⟨[], .fehler⟩

/-- Modelled from the spec: fehler_reporter_set_format changes the dialect for
subsequent report calls only; its body is not in the repository sources. -/
def fehler_reporter_set_format (r : FehlerReporter) (format : FehlerFormat) :
    FehlerReporter :=
  { r with format := format }

/-- Modelled from the spec: fehler_reporter_add_source fails (returns 0) when
the filename is empty or the content is null (modelled as none), otherwise
registers the copy, shadowing any earlier registration of the same filename
(last write wins); its body is not in the repository sources. -/
def fehler_reporter_add_source (r : FehlerReporter) (filename : String)
    (content : Option String) : Nat × FehlerReporter :=
  if filename = "" then (0, r)
  else
    match content with
    | none => (0, r)
    | some c => (1, { r with sources := (filename, c) :: r.sources })

/-- Modelled from the spec: registry lookup returns the most recently
registered content for the filename, or none when the file is unknown. -/
def lookupSource (reg : List (String × String)) (filename : String) :
    Option String :=
  match reg.find? (fun p => p.1 == filename) with
  | some p => some p.2
  | none => none

/-- Modelled from the spec: fehler_version returns the library version string,
documented in the header as 0.6.1; its body is not in the repository
sources. -/
def fehler_version : String := "0.6.1"

/-- Modelled from the spec: splits file content on line-terminator boundaries,
accumulating the current line in reverse. -/
def splitLinesAux : List Char → List Char → List String
  | [], acc => [String.mk acc.reverse]
  | c :: cs, acc =>
    if c = '\n' then String.mk acc.reverse :: splitLinesAux cs []
    else splitLinesAux cs (c :: acc)

/-- Modelled from the spec: the list of lines of a file's content; a trailing
line terminator does not open an extra empty final line. -/
def splitLines (content : String) : List String :=
  let parts := splitLinesAux content.data []
  if parts.getLast? = some "" then parts.dropLast else parts

/-- Modelled from the spec: line lookup (1-based); a line number of zero or
beyond the file's line count signals not-found so the renderer can degrade;
the body of this registry operation is not in the repository sources. -/
def getLine (content : String) (n : Nat) : Option String :=
  if n = 0 then none else (splitLines content)[n - 1]?

/-- Number of decimal digits of a natural number (1 for numbers below ten). -/
def decimalWidth (n : Nat) : Nat :=
  if n < 10 then 1 else decimalWidth (n / 10) + 1
decreasing_by exact Nat.div_lt_self (by omega) (by omega)

/-- Decimal digit character for a value below ten. -/
def decimalDigit (n : Nat) : Char := Char.ofNat (48 + n)

/-- Decimal digit characters of a natural number, most significant first. -/
def decimalChars (n : Nat) : List Char :=
  if n < 10 then [decimalDigit n]
  else decimalChars (n / 10) ++ [decimalDigit (n % 10)]
decreasing_by exact Nat.div_lt_self (by omega) (by omega)

/-- Decimal rendering of a natural number. -/
def decimalStr (n : Nat) : String := String.mk (decimalChars n)

/-- A run of spaces. -/
def mkSpaces (n : Nat) : String := String.mk (List.replicate n ' ')

/-- Right-aligns a string in a field of the given width by space padding on
the left. -/
def padLeft (w : Nat) (s : String) : String :=
  mkSpaces (w - s.length) ++ s

/-- Modelled from the spec: the caret markup covering the half-open column
interval from startCol (inclusive) to endCol (exclusive): startCol - 1 leading
spaces, a caret at the first marked column, and a tilde for every remaining
marked column; a zero-width interval is still marked with a single caret. -/
def markerSegment (startCol endCol : Nat) : String :=
  mkSpaces (startCol - 1) ++ "^" ++ String.mk (List.replicate (endCol - startCol - 1) '~')

/-- Modelled from the spec: the marker for one rendered line of a range.  A
single-line range marks its column interval; in a multi-line range the first
line is marked from the start column to end of line, interior lines are fully
marked, and the last line is marked from column one up to the end column. -/
def lineMarker (sl sc el ec n : Nat) (text : String) : String :=
  if sl = el then markerSegment sc ec
  else if n = sl then markerSegment sc (text.length + 1)
  else if n = el then markerSegment 1 ec
  else markerSegment 1 (text.length + 1)

/-- One rendered snippet row: the 1-based line number, the full source line
text, and the caret/tilde marker placed beneath it. -/
structure RenderedLine where
  num : Nat
  source : String
  marker : String
deriving DecidableEq

/-- The consecutive line numbers starting at s, of the given count. -/
def lineNums (s : Nat) : Nat → List Nat
  | 0 => []
  | k + 1 => s :: lineNums (s + 1) k

/-- Applies the function to every element, succeeding only when every
application succeeds (the renderer degrades to no snippet otherwise). -/
def optionMapAll {α : Type} (f : Nat → Option α) : List Nat → Option (List α)
  | [] => some []
  | n :: ns =>
    match f n with
    | none => none
    | some x =>
      match optionMapAll f ns with
      | none => none
      | some rest => some (x :: rest)

/-- Modelled from the spec: the snippet renderer.  Resolves the file in the
registry (none when unknown), then renders every line from the start line to
the end line inclusive with its marker; any line lookup beyond the file's
bounds degrades to no snippet; the body of this renderer is not in the
repository sources. -/
def renderSnippet (reg : List (String × String)) (file : String)
    (sl sc el ec : Nat) : Option (List RenderedLine) :=
  match lookupSource reg file with
  | none => none
  | some content =>
    optionMapAll
      (fun n => (getLine content n).map
        (fun text => ⟨n, text, lineMarker sl sc el ec n text⟩))
      (lineNums sl (el + 1 - sl))

/-- Modelled from the spec: the textual snippet block.  Each source row is
the right-aligned line-number gutter, a separator, and the full source line;
beneath it comes the marker row.  The gutter width is the digit width of the
largest rendered line number. -/
def snippetText (el : Nat) (snip : List RenderedLine) : List String :=
  (snip.map (fun rl =>
    [padLeft (decimalWidth el) (decimalStr rl.num) ++ " | " ++ rl.source,
     rl.marker])).flatten

/-- Fixed display label per severity (static table, not configurable). -/
def severityLabel : FehlerSeverity → String
  | .fatal => "fatal"
  | .error => "error"
  | .warn => "warning"
  | .note => "note"
  | .todo => "todo"
  | .unimplemented => "unimplemented"

/-- Code tag shown next to the label in the native and GCC dialects: the code
in square brackets, or nothing when no code is set. -/
def codeTag : Option String → String
  | none => ""
  | some c => "[" ++ c ++ "]"

/-- Code shown in the MSVC header position, or nothing when no code is set. -/
def msvcCode : Option String → String
  | none => ""
  | some c => " " ++ c

/-- Modelled from the spec: the location string of a dialect, built from the
start position: file(line,column) for MSVC, file:line:column otherwise. -/
def locText (fmt : FehlerFormat) (loc : FehlerLocation) : String :=
  match fmt with
  | .msvc =>
    locFile loc ++ "(" ++ decimalStr (locStartLine loc) ++ "," ++
      decimalStr (locStartCol loc) ++ ")"
  | _ =>
    locFile loc ++ ":" ++ decimalStr (locStartLine loc) ++ ":" ++
      decimalStr (locStartCol loc)

/-- Modelled from the spec: the dialect-specific header of a located
diagnostic.  Native: label, bracketed code, message.  GCC: location, label,
bracketed code, message.  MSVC: location, label, code, message. -/
def headerLine (fmt : FehlerFormat) (d : FehlerDiagnostic)
    (loc : FehlerLocation) : String :=
  match fmt with
  | .fehler => severityLabel d.severity ++ codeTag d.code ++ ": " ++ d.message
  | .gcc =>
    locText .gcc loc ++ ": " ++ severityLabel d.severity ++ codeTag d.code ++
      ": " ++ d.message
  | .msvc =>
    locText .msvc loc ++ ": " ++ severityLabel d.severity ++ msvcCode d.code ++
      ": " ++ d.message

/-- Modelled from the spec: the header rows of a located diagnostic; the
native dialect adds an arrow row carrying the location string, the other
dialects carry the location inside the header line itself. -/
def headerPart (fmt : FehlerFormat) (d : FehlerDiagnostic)
    (loc : FehlerLocation) : List String :=
  match fmt with
  | .fehler => [headerLine .fehler d loc, " --> " ++ locText .fehler loc]
  | .gcc => [headerLine .gcc d loc]
  | .msvc => [headerLine .msvc d loc]

/-- Modelled from the spec: the snippet rows for a location, empty when the
renderer degrades (unknown file or out-of-range line). -/
def snippetBlock (reg : List (String × String)) (loc : FehlerLocation) :
    List String :=
  match renderSnippet reg (locFile loc) (locStartLine loc) (locStartCol loc)
      (locEndLine loc) (locEndCol loc) with
  | none => []
  | some snip => snippetText (locEndLine loc) snip

/-- Help row, present exactly when help text is set. -/
def helpLines : Option String → List String
  | none => []
  | some h => ["help: " ++ h]

/-- Documentation-URL row, present exactly when a URL is set. -/
def urlLines : Option String → List String
  | none => []
  | some u => ["note: see " ++ u]

/-- Modelled from the spec: the full rendering of one diagnostic in one
dialect, as the list of output rows written by fehler_reporter_report.  With
no location every dialect emits the message-only form: the severity label and
the message.  With a location the dialect header is followed by the snippet
block (possibly empty), the help row and the URL row. -/
def formatDiag (fmt : FehlerFormat) (reg : List (String × String))
    (d : FehlerDiagnostic) : List String :=
  match d.location with
  | none => [severityLabel d.severity ++ ": " ++ d.message]
  | some loc =>
    headerPart fmt d loc ++ snippetBlock reg loc ++ helpLines d.help ++
      urlLines d.url

/-- Modelled from the spec: fehler_reporter_report writes the rendering of the
diagnostic in the reporter's current dialect to standard output; the model
returns the written rows; its body is not in the repository sources. -/
def fehler_reporter_report (r : FehlerReporter) (d : FehlerDiagnostic) :
    List String :=
  formatDiag r.format r.sources d

/-- Physical location of the structured (SARIF-style) export: file URI with
1-based start and end line/column. -/
structure SarifPhysicalLocation where
  uri : String
  startLine : Nat
  startColumn : Nat
  endLine : Nat
  endColumn : Nat
deriving DecidableEq

/-- Modelled from the spec: a diagnostic location as a physical location; a
point becomes a zero-width range. -/
def locToPhysical : FehlerLocation → SarifPhysicalLocation
  | .point f l c => ⟨f, l, c, l, c⟩
  | .range f sl sc el ec => ⟨f, sl, sc, el, ec⟩

/-- The structured (SARIF-style) result document produced for one
diagnostic. -/
structure SarifResult where
  ruleId : String
  level : String
  messageText : String
  physicalLocation : Option SarifPhysicalLocation
  helpText : Option String
  helpUri : Option String
deriving DecidableEq

/-- Severity-derived default rule identifier used when no code is set. -/
def defaultRuleId (s : FehlerSeverity) : String := severityLabel s

/-- Modelled from the spec: the structured exporter.  The ruleId comes from
the code, or the severity-derived default when no code is set; the level is
mapped from the severity; the message, location, help and URL carry over,
absent optional fields staying absent; the body of this exporter is not in
the repository sources. -/
def exportSarif (d : FehlerDiagnostic) : SarifResult :=
  { ruleId :=
      match d.code with
      | some c => c
      | none => defaultRuleId d.severity,
    level := severityLabel d.severity,
    messageText := d.message,
    physicalLocation := d.location.map locToPhysical,
    helpText := d.help,
    helpUri := d.url }

/-- The string s occurs contiguously inside t. -/
def strHas (t pat : String) : Prop :=
  ∃ a b : List Char, t.data = a ++ pat.data ++ b

/-- Some output row contains the given string contiguously. -/
def outputHas (out : List String) (pat : String) : Prop :=
  ∃ l ∈ out, strHas l pat

theorem strData_append (s t : String) : (s ++ t).data = s.data ++ t.data := by
  cases s; cases t; rfl

theorem strHas_self (s : String) : strHas s s :=
  ⟨[], [], by simp⟩

theorem strHas_appL {s pat : String} (t : String) (h : strHas s pat) :
    strHas (s ++ t) pat := by
  obtain ⟨a, b, hab⟩ := h
  exact ⟨a, b ++ t.data, by simp [strData_append, hab]⟩

theorem strHas_appR {t pat : String} (s : String) (h : strHas t pat) :
    strHas (s ++ t) pat := by
  obtain ⟨a, b, hab⟩ := h
  exact ⟨s.data ++ a, b, by simp [strData_append, hab]⟩

/-- C10: fehler_version always returns the constant string 0.6.1; as a pure
constant of the model it has no effect on any reporter or diagnostic state. -/
theorem fehler_version_constant : fehler_version = "0.6.1" := rfl

/-- C8: every diagnostic setter returns a success indicator with nonzero
meaning success and fails only on invalid structural input: the location
setters fail exactly on an empty filename, the range setter additionally
exactly when the end position is before the start position, and the help,
code and url setters fail exactly on a null string; on valid input every
setter succeeds. -/
theorem setters_success_iff (d : FehlerDiagnostic) (f : String)
    (l c sl sc el ec : Nat) (h hc hu : String) :
    ((fehler_diagnostic_set_location d f l c).1 ≠ 0 ↔ f ≠ "") ∧
    ((fehler_diagnostic_set_range d f sl sc el ec).1 ≠ 0 ↔
      (f ≠ "" ∧ endBeforeStart sl sc el ec = false)) ∧
    (fehler_diagnostic_set_help d (some h)).1 ≠ 0 ∧
    (fehler_diagnostic_set_help d none).1 = 0 ∧
    (fehler_diagnostic_set_code d (some hc)).1 ≠ 0 ∧
    (fehler_diagnostic_set_code d none).1 = 0 ∧
    (fehler_diagnostic_set_url d (some hu)).1 ≠ 0 ∧
    (fehler_diagnostic_set_url d none).1 = 0 := by
  refine ⟨?_, ?_, by simp [fehler_diagnostic_set_help],
    by simp [fehler_diagnostic_set_help], by simp [fehler_diagnostic_set_code],
    by simp [fehler_diagnostic_set_code], by simp [fehler_diagnostic_set_url],
    by simp [fehler_diagnostic_set_url]⟩
  · by_cases hf : f = "" <;> simp [fehler_diagnostic_set_location, hf]
  · by_cases hf : f = "" <;>
      by_cases hr : endBeforeStart sl sc el ec = true <;>
      simp [fehler_diagnostic_set_range, hf, hr]

/-- C8 witness: concrete success and failure cases for each setter. -/
theorem setters_success_iff_witness :
    (((fehler_diagnostic_set_location (fehler_diagnostic_create .error "m")
        "a.c" 1 2).1 ≠ 0 ↔ ("a.c" : String) ≠ "") ∧
      ((fehler_diagnostic_set_range (fehler_diagnostic_create .error "m")
        "a.c" 2 4 1 1).1 ≠ 0 ↔
        (("a.c" : String) ≠ "" ∧ endBeforeStart 2 4 1 1 = false)) ∧
      (fehler_diagnostic_set_help (fehler_diagnostic_create .error "m")
        (some "h")).1 ≠ 0 ∧
      (fehler_diagnostic_set_help (fehler_diagnostic_create .error "m")
        none).1 = 0 ∧
      (fehler_diagnostic_set_code (fehler_diagnostic_create .error "m")
        (some "E1")).1 ≠ 0 ∧
      (fehler_diagnostic_set_code (fehler_diagnostic_create .error "m")
        none).1 = 0 ∧
      (fehler_diagnostic_set_url (fehler_diagnostic_create .error "m")
        (some "u")).1 ≠ 0 ∧
      (fehler_diagnostic_set_url (fehler_diagnostic_create .error "m")
        none).1 = 0) :=
  setters_success_iff (fehler_diagnostic_create .error "m") "a.c"
    1 2 2 4 1 1 "h" "E1" "u"

/-- C9: a successful set_location or set_range stores exactly the new
location, replacing whatever location (of either kind) the diagnostic held
before, so at most one location is held at any time. -/
theorem location_overwrite (d : FehlerDiagnostic) (f : String)
    (l c sl sc el ec : Nat) (hf : f ≠ "")
    (hr : endBeforeStart sl sc el ec = false) :
    (fehler_diagnostic_set_location d f l c).2.location =
      some (.point f l c) ∧
    (fehler_diagnostic_set_range d f sl sc el ec).2.location =
      some (.range f sl sc el ec) := by
  constructor
  · simp [fehler_diagnostic_set_location, hf]
  · simp [fehler_diagnostic_set_range, hf, hr]

/-- C9 witness: a point replaces a previously held range, and a range
replaces a previously held point. -/
theorem location_overwrite_witness :
    ("a.c" : String) ≠ "" ∧ endBeforeStart 2 1 2 5 = false ∧
    (fehler_diagnostic_set_location
      ⟨.error, "m", some (.range "old.c" 1 1 2 2), none, none, none⟩
      "a.c" 3 4).2.location = some (.point "a.c" 3 4) ∧
    (fehler_diagnostic_set_range
      ⟨.error, "m", some (.point "old.c" 9 9), none, none, none⟩
      "a.c" 2 1 2 5).2.location = some (.range "a.c" 2 1 2 5) :=
  ⟨by decide, by decide,
    (location_overwrite
      ⟨.error, "m", some (.range "old.c" 1 1 2 2), none, none, none⟩
      "a.c" 3 4 2 1 2 5 (by decide) (by decide)).1,
    (location_overwrite
      ⟨.error, "m", some (.point "old.c" 9 9), none, none, none⟩
      "a.c" 3 4 2 1 2 5 (by decide) (by decide)).2⟩

/-- C7: after registering a nonempty filename with non-null content, lookup
returns exactly that content; registering the same filename again replaces it
(last write wins); registering a different filename or changing the dialect
leaves the association intact. -/
theorem registry_lookup_spec (r : FehlerReporter) (f g c c2 cg : String)
    (hf : f ≠ "") (hg : g ≠ f) :
    lookupSource ((fehler_reporter_add_source r f (some c)).2).sources f =
      some c ∧
    lookupSource ((fehler_reporter_add_source
      (fehler_reporter_add_source r f (some c)).2 f (some c2)).2).sources f =
      some c2 ∧
    lookupSource ((fehler_reporter_add_source
      (fehler_reporter_add_source r f (some c)).2 g (some cg)).2).sources f =
      some c ∧
    lookupSource (fehler_reporter_set_format
      (fehler_reporter_add_source r f (some c)).2 .gcc).sources f = some c := by
  have hff : (f == f) = true := by simp
  have hgf : (g == f) = false := by simp [hg]
  by_cases hge : g = "" <;>
    simp [fehler_reporter_add_source, fehler_reporter_set_format,
      lookupSource, hf, hge, List.find?, hff, hgf]

/-- C7 witness: a concrete registry round trip with replacement and an
unrelated registration. -/
theorem registry_lookup_spec_witness :
    ("a.c" : String) ≠ "" ∧ ("b.c" : String) ≠ "a.c" ∧
    lookupSource ((fehler_reporter_add_source fehler_reporter_create "a.c"
      (some "v1")).2).sources "a.c" = some "v1" ∧
    lookupSource ((fehler_reporter_add_source
      (fehler_reporter_add_source fehler_reporter_create "a.c" (some "v1")).2
      "a.c" (some "v2")).2).sources "a.c" = some "v2" ∧
    lookupSource ((fehler_reporter_add_source
      (fehler_reporter_add_source fehler_reporter_create "a.c" (some "v1")).2
      "b.c" (some "w")).2).sources "a.c" = some "v1" ∧
    lookupSource (fehler_reporter_set_format
      (fehler_reporter_add_source fehler_reporter_create "a.c"
        (some "v1")).2 .gcc).sources "a.c" = some "v1" := by
  refine ⟨by decide, by decide, ?_⟩
  have h := registry_lookup_spec fehler_reporter_create "a.c" "b.c"
    "v1" "v2" "w" (by decide) (by decide)
  exact ⟨h.1, h.2.1, h.2.2.1, h.2.2.2⟩

/-- C5: a diagnostic without a location renders, in every dialect, as the
single message-only row holding the severity label and the message, with no
location row and zero snippet rows. -/
theorem no_location_message_only (reg : List (String × String))
    (d : FehlerDiagnostic) (hl : d.location = none) (fmt : FehlerFormat) :
    formatDiag fmt reg d = [severityLabel d.severity ++ ": " ++ d.message] := by
  simp [formatDiag, hl]

/-- C5 witness: a concrete unlocated note renders as one row in the GCC
dialect. -/
theorem no_location_message_only_witness :
    (⟨.note, "hello", none, some "h", some "E2", none⟩ :
      FehlerDiagnostic).location = none ∧
    formatDiag .gcc [] ⟨.note, "hello", none, some "h", some "E2", none⟩ =
      ["note: hello"] :=
  ⟨rfl, no_location_message_only []
    ⟨.note, "hello", none, some "h", some "E2", none⟩ rfl .gcc⟩

/-- C6 counterexample: the exported document does not keep an unset code
absent — the ruleId field is defaulted from the severity, so a diagnostic
with no code exports identically to one whose code is the severity label. -/
theorem export_unset_code_not_absent :
    exportSarif ⟨.error, "m", none, none, some "error", none⟩ =
      exportSarif ⟨.error, "m", none, none, none, none⟩ ∧
    (⟨.error, "m", none, none, some "error", none⟩ :
      FehlerDiagnostic).code ≠
      (⟨.error, "m", none, none, none, none⟩ : FehlerDiagnostic).code := by
  exact ⟨rfl, by decide⟩

/-- C6 (amended): structured export is total; message, severity level,
location, help and url are carried to their target fields, with unset
location, help and url staying absent; the code maps to ruleId, an unset code
yielding the severity-derived default rather than an absent field. -/
theorem export_lossless_amended (d : FehlerDiagnostic) :
    (exportSarif d).messageText = d.message ∧
    (exportSarif d).level = severityLabel d.severity ∧
    (exportSarif d).physicalLocation = d.location.map locToPhysical ∧
    (exportSarif d).helpText = d.help ∧
    (exportSarif d).helpUri = d.url ∧
    (exportSarif d).ruleId =
      (match d.code with
       | some c => c
       | none => defaultRuleId d.severity) :=
  ⟨rfl, rfl, rfl, rfl, rfl, rfl⟩

theorem decimalWidth_eq (n : Nat) :
    decimalWidth n = if n < 10 then 1 else decimalWidth (n / 10) + 1 := by
  rw [decimalWidth]

theorem decimalChars_eq (n : Nat) :
    decimalChars n =
      if n < 10 then [decimalDigit n]
      else decimalChars (n / 10) ++ [decimalDigit (n % 10)] := by
  rw [decimalChars]

theorem decimalWidth_mono : ∀ n m : Nat, m ≤ n → decimalWidth m ≤ decimalWidth n := by
  intro n
  induction n using Nat.strong_induction_on with
  | _ n ih =>
    intro m hmn
    rw [decimalWidth_eq n, decimalWidth_eq m]
    by_cases hn : n < 10
    · have hm : m < 10 := by omega
      simp [hn, hm]
    · by_cases hm : m < 10
      · simp [hn, hm]
      · simp [hn, hm]
        exact ih (n / 10) (Nat.div_lt_self (by omega) (by omega)) (m / 10)
          (Nat.div_le_div_right hmn)

theorem decimalChars_length (n : Nat) :
    (decimalChars n).length = decimalWidth n := by
  induction n using Nat.strong_induction_on with
  | _ n ih =>
    rw [decimalChars_eq, decimalWidth_eq]
    by_cases hn : n < 10
    · simp [hn]
    · simp [hn]
      exact ih (n / 10) (Nat.div_lt_self (by omega) (by omega))

theorem decimalStr_length (n : Nat) : (decimalStr n).length = decimalWidth n :=
  decimalChars_length n

theorem mkSpaces_length (n : Nat) : (mkSpaces n).length = n := by
  simp [mkSpaces, String.length]

theorem padLeft_length (w : Nat) (s : String) (h : s.length ≤ w) :
    (padLeft w s).length = w := by
  simp [padLeft, String.length_append, mkSpaces_length]
  omega

theorem lineNums_length (k : Nat) : ∀ s : Nat, (lineNums s k).length = k := by
  induction k with
  | zero => intro s; rfl
  | succ j ih => intro s; simp [lineNums, ih]

theorem lineNums_mem (k : Nat) :
    ∀ s n : Nat, n ∈ lineNums s k ↔ s ≤ n ∧ n < s + k := by
  induction k with
  | zero => intro s n; simp [lineNums]
  | succ j ih => intro s n; simp [lineNums, ih]; omega

theorem optionMapAll_some {α : Type} (f : Nat → Option α) :
    ∀ ns : List Nat, (∀ n ∈ ns, (f n).isSome) →
    ∃ l, optionMapAll f ns = some l ∧ l.length = ns.length ∧
      ∀ x ∈ l, ∃ n ∈ ns, f n = some x := by
  intro ns
  induction ns with
  | nil => intro _; exact ⟨[], rfl, rfl, by simp⟩
  | cons n ns ih =>
    intro hall
    obtain ⟨x, hx⟩ := Option.isSome_iff_exists.mp (hall n (by simp))
    obtain ⟨l, hl, hlen, hmem⟩ := ih (fun m hm => hall m (by simp [hm]))
    refine ⟨x :: l, by simp [optionMapAll, hx, hl], by simp [hlen], ?_⟩
    intro y hy
    rcases List.mem_cons.mp hy with rfl | hy'
    · exact ⟨n, by simp, hx⟩
    · obtain ⟨m, hm, hfm⟩ := hmem y hy'
      exact ⟨m, by simp [hm], hfm⟩

/-- C1: for a single-line range over a registered line, the snippet is
exactly one rendered row carrying the full source line, shown behind the
right-aligned line-number gutter, with a marker of start.column - 1 spaces, a
caret at the first marked column and a tilde for every remaining column of
the half-open interval; a zero-width point is marked with a single caret. -/
theorem single_line_snippet (reg : List (String × String))
    (f content text : String) (line sc ec : Nat)
    (hlook : lookupSource reg f = some content)
    (hline : getLine content line = some text) :
    renderSnippet reg f line sc line ec =
      some [⟨line, text, mkSpaces (sc - 1) ++ "^" ++
        String.mk (List.replicate (ec - sc - 1) '~')⟩] ∧
    snippetText line [⟨line, text, mkSpaces (sc - 1) ++ "^" ++
        String.mk (List.replicate (ec - sc - 1) '~')⟩] =
      [padLeft (decimalWidth line) (decimalStr line) ++ " | " ++ text,
       mkSpaces (sc - 1) ++ "^" ++
         String.mk (List.replicate (ec - sc - 1) '~')] ∧
    (ec = sc →
      mkSpaces (sc - 1) ++ "^" ++
          String.mk (List.replicate (ec - sc - 1) '~') =
        mkSpaces (sc - 1) ++ "^") := by
  have hk : line + 1 - line = 1 := by omega
  refine ⟨?_, ?_, ?_⟩
  · simp [renderSnippet, hlook, hk, lineNums, optionMapAll, hline,
      lineMarker, markerSegment]
  · simp [snippetText]
  · intro h
    have h0 : ec - sc - 1 = 0 := by omega
    simp [h0, String.ext_iff, strData_append]

/-- C1 witness: the round-trip scenario file, with the range over the
character x on line one, columns five to six. -/
theorem single_line_snippet_witness :
    lookupSource [("a.c", "int x = 1\nint y = 2\n")] "a.c" =
      some "int x = 1\nint y = 2\n" ∧
    getLine "int x = 1\nint y = 2\n" 1 = some "int x = 1" ∧
    renderSnippet [("a.c", "int x = 1\nint y = 2\n")] "a.c" 1 5 1 6 =
      some [⟨1, "int x = 1", "    ^"⟩] :=
  ⟨by decide, by decide,
    (single_line_snippet [("a.c", "int x = 1\nint y = 2\n")] "a.c"
      "int x = 1\nint y = 2\n" "int x = 1" 1 5 6
      (by decide) (by decide)).1⟩

/-- C2: a valid range whose lines all resolve renders to exactly
end.line - start.line + 1 source rows, every rendered line number staying at
most end.line and every gutter padding to exactly the digit width of
end.line, the largest rendered line number. -/
theorem snippet_line_count (reg : List (String × String)) (f content : String)
    (sl sc el ec : Nat) (hse : sl ≤ el)
    (hlook : lookupSource reg f = some content)
    (hlines : ∀ n ∈ lineNums sl (el + 1 - sl), (getLine content n).isSome) :
    ∃ snip, renderSnippet reg f sl sc el ec = some snip ∧
      snip.length = el - sl + 1 ∧
      ∀ rl ∈ snip, rl.num ≤ el ∧
        (padLeft (decimalWidth el) (decimalStr rl.num)).length =
          decimalWidth el := by
  obtain ⟨l, hopt, hlen, hmem⟩ :=
    optionMapAll_some
      (fun n => (getLine content n).map
        (fun text => (⟨n, text, lineMarker sl sc el ec n text⟩ :
          RenderedLine)))
      (lineNums sl (el + 1 - sl))
      (fun n hn => by
        have h1 := hlines n hn
        cases hgl : getLine content n with
        | none => simp [hgl] at h1
        | some t => simp [hgl])
  refine ⟨l, ?_, ?_, ?_⟩
  · simp only [renderSnippet, hlook]
    exact hopt
  · rw [hlen, lineNums_length]
    omega
  · intro rl hrl
    obtain ⟨n, hn, hfn⟩ := hmem rl hrl
    have hnum : rl.num = n := by
      cases hgl : getLine content n with
      | none => rw [hgl] at hfn; simp at hfn
      | some t =>
        rw [hgl] at hfn
        simp at hfn
        subst hfn
        rfl
    have hle : n ≤ el := by
      have := (lineNums_mem (el + 1 - sl) sl n).mp hn
      omega
    refine ⟨by omega, ?_⟩
    apply padLeft_length
    rw [decimalStr_length, hnum]
    exact decimalWidth_mono el n hle

/-- C2 witness: the scenario of a range over lines two to four of a five-line
file, rendering three gutter-aligned rows. -/
theorem snippet_line_count_witness :
    (2 : Nat) ≤ 4 ∧
    lookupSource [("f.c", "l1\nl2\nl3\nl4\nl5\n")] "f.c" =
      some "l1\nl2\nl3\nl4\nl5\n" ∧
    (∀ n ∈ lineNums 2 (4 + 1 - 2),
      (getLine "l1\nl2\nl3\nl4\nl5\n" n).isSome) ∧
    (∃ snip,
      renderSnippet [("f.c", "l1\nl2\nl3\nl4\nl5\n")] "f.c" 2 3 4 2 =
        some snip ∧
      snip.length = 4 - 2 + 1 ∧
      ∀ rl ∈ snip, rl.num ≤ 4 ∧
        (padLeft (decimalWidth 4) (decimalStr rl.num)).length =
          decimalWidth 4) :=
  ⟨by decide, by decide, by decide,
    snippet_line_count [("f.c", "l1\nl2\nl3\nl4\nl5\n")] "f.c"
      "l1\nl2\nl3\nl4\nl5\n" 2 3 4 2 (by decide) (by decide) (by decide)⟩

/-- C3: when the location's file is unknown to the registry, or its start
line is beyond the file's lines, every dialect still renders: the snippet
block is empty, the output is exactly the dialect header followed by the
optional help and URL rows, and the output still carries the dialect's
file/line/column location string. -/
theorem degraded_render (reg : List (String × String)) (d : FehlerDiagnostic)
    (loc : FehlerLocation) (fmt : FehlerFormat)
    (hl : d.location = some loc)
    (hdeg : lookupSource reg (locFile loc) = none ∨
      ∀ content, lookupSource reg (locFile loc) = some content →
        getLine content (locStartLine loc) = none) :
    snippetBlock reg loc = [] ∧
    formatDiag fmt reg d =
      headerPart fmt d loc ++ helpLines d.help ++ urlLines d.url ∧
    outputHas (formatDiag fmt reg d) (locText fmt loc) := by
  have hblock : snippetBlock reg loc = [] := by
    cases hcont : lookupSource reg (locFile loc) with
    | none => simp [snippetBlock, renderSnippet, hcont]
    | some content =>
      have hgl : getLine content (locStartLine loc) = none := by
        rcases hdeg with hnone | hoor
        · rw [hnone] at hcont
          cases hcont
        · exact hoor content hcont
      cases hk : locEndLine loc + 1 - locStartLine loc with
      | zero =>
        simp [snippetBlock, renderSnippet, hcont, hk, lineNums, optionMapAll,
          snippetText]
      | succ j =>
        simp [snippetBlock, renderSnippet, hcont, hk, lineNums, optionMapAll,
          hgl]
  have hfmt : formatDiag fmt reg d =
      headerPart fmt d loc ++ helpLines d.help ++ urlLines d.url := by
    simp [formatDiag, hl, hblock]
  refine ⟨hblock, hfmt, ?_⟩
  cases fmt with
  | fehler =>
    refine ⟨" --> " ++ locText .fehler loc, ?_, strHas_appR _ (strHas_self _)⟩
    rw [hfmt]
    simp [headerPart]
  | gcc =>
    refine ⟨headerLine .gcc d loc, ?_, ?_⟩
    · rw [hfmt]
      simp [headerPart]
    · simp only [headerLine]
      exact strHas_appL _ (strHas_appL _ (strHas_appL _ (strHas_appL _
        (strHas_appL _ (strHas_self _)))))
  | msvc =>
    refine ⟨headerLine .msvc d loc, ?_, ?_⟩
    · rw [hfmt]
      simp [headerPart]
    · simp only [headerLine]
      exact strHas_appL _ (strHas_appL _ (strHas_appL _ (strHas_appL _
        (strHas_appL _ (strHas_self _)))))

/-- C3 witness: a diagnostic pointing into a file that was never registered,
reported in the GCC dialect. -/
theorem degraded_render_witness :
    (⟨.fatal, "boom", some (.point "nofile.c" 3 7), none, none, none⟩ :
      FehlerDiagnostic).location = some (.point "nofile.c" 3 7) ∧
    lookupSource [] (locFile (.point "nofile.c" 3 7)) = none ∧
    (snippetBlock [] (.point "nofile.c" 3 7) = [] ∧
      formatDiag .gcc []
        ⟨.fatal, "boom", some (.point "nofile.c" 3 7), none, none, none⟩ =
        headerPart .gcc
          ⟨.fatal, "boom", some (.point "nofile.c" 3 7), none, none, none⟩
          (.point "nofile.c" 3 7) ++ helpLines none ++ urlLines none ∧
      outputHas (formatDiag .gcc []
        ⟨.fatal, "boom", some (.point "nofile.c" 3 7), none, none, none⟩)
        (locText .gcc (.point "nofile.c" 3 7))) :=
  ⟨rfl, rfl,
    degraded_render []
      ⟨.fatal, "boom", some (.point "nofile.c" 3 7), none, none, none⟩
      (.point "nofile.c" 3 7) .gcc rfl (Or.inl rfl)⟩

/-- C4: for any located diagnostic, every dialect's output carries the same
information pieces: the severity label text, the message text, the code when
one is set, and the help text when one is set; the dialects differ only in
arrangement. -/
theorem dialects_same_info (reg : List (String × String))
    (d : FehlerDiagnostic) (loc : FehlerLocation)
    (hl : d.location = some loc) (fmt : FehlerFormat) :
    outputHas (formatDiag fmt reg d) (severityLabel d.severity) ∧
    outputHas (formatDiag fmt reg d) d.message ∧
    (∀ c, d.code = some c → outputHas (formatDiag fmt reg d) c) ∧
    (∀ h, d.help = some h → outputHas (formatDiag fmt reg d) h) := by
  have hmem : headerLine fmt d loc ∈ formatDiag fmt reg d := by
    cases fmt <;> simp [formatDiag, hl, headerPart]
  have hlab : strHas (headerLine fmt d loc) (severityLabel d.severity) := by
    cases fmt with
    | fehler =>
      simp only [headerLine]
      exact strHas_appL _ (strHas_appL _ (strHas_appL _ (strHas_self _)))
    | gcc =>
      simp only [headerLine]
      exact strHas_appL _ (strHas_appL _ (strHas_appL _ (strHas_appR _
        (strHas_self _))))
    | msvc =>
      simp only [headerLine]
      exact strHas_appL _ (strHas_appL _ (strHas_appL _ (strHas_appR _
        (strHas_self _))))
  have hmsg : strHas (headerLine fmt d loc) d.message := by
    cases fmt <;> simp only [headerLine] <;>
      exact strHas_appR _ (strHas_self _)
  have hcode : ∀ c, d.code = some c →
      strHas (headerLine fmt d loc) c := by
    intro c hc
    cases fmt with
    | fehler =>
      simp only [headerLine, hc, codeTag]
      exact strHas_appL _ (strHas_appL _ (strHas_appR _ (strHas_appL _
        (strHas_appR _ (strHas_self _)))))
    | gcc =>
      simp only [headerLine, hc, codeTag]
      exact strHas_appL _ (strHas_appL _ (strHas_appR _ (strHas_appL _
        (strHas_appR _ (strHas_self _)))))
    | msvc =>
      simp only [headerLine, hc, msvcCode]
      exact strHas_appL _ (strHas_appL _ (strHas_appR _ (strHas_appR _
        (strHas_self _))))
  refine ⟨⟨headerLine fmt d loc, hmem, hlab⟩,
    ⟨headerLine fmt d loc, hmem, hmsg⟩,
    fun c hc => ⟨headerLine fmt d loc, hmem, hcode c hc⟩,
    fun h hh => ⟨"help: " ++ h, ?_, strHas_appR _ (strHas_self _)⟩⟩
  cases fmt <;> simp [formatDiag, hl, headerPart, helpLines, hh]

/-- C4 witness: one fully populated located diagnostic, rendered in every
dialect. -/
theorem dialects_same_info_witness :
    (⟨.error, "unused variable", some (.range "a.c" 1 5 1 6), some "remove it",
      some "E042", some "https://docs"⟩ : FehlerDiagnostic).location =
      some (.range "a.c" 1 5 1 6) ∧
    (∀ fmt : FehlerFormat,
      outputHas (formatDiag fmt [("a.c", "int x = 1\nint y = 2\n")]
        ⟨.error, "unused variable", some (.range "a.c" 1 5 1 6),
          some "remove it", some "E042", some "https://docs"⟩)
        (severityLabel .error) ∧
      outputHas (formatDiag fmt [("a.c", "int x = 1\nint y = 2\n")]
        ⟨.error, "unused variable", some (.range "a.c" 1 5 1 6),
          some "remove it", some "E042", some "https://docs"⟩)
        "unused variable" ∧
      (∀ c, (some "E042" : Option String) = some c →
        outputHas (formatDiag fmt [("a.c", "int x = 1\nint y = 2\n")]
          ⟨.error, "unused variable", some (.range "a.c" 1 5 1 6),
            some "remove it", some "E042", some "https://docs"⟩) c) ∧
      (∀ h, (some "remove it" : Option String) = some h →
        outputHas (formatDiag fmt [("a.c", "int x = 1\nint y = 2\n")]
          ⟨.error, "unused variable", some (.range "a.c" 1 5 1 6),
            some "remove it", some "E042", some "https://docs"⟩) h)) :=
  ⟨rfl, fun fmt =>
    dialects_same_info [("a.c", "int x = 1\nint y = 2\n")]
      ⟨.error, "unused variable", some (.range "a.c" 1 5 1 6),
        some "remove it", some "E042", some "https://docs"⟩
      (.range "a.c" 1 5 1 6) rfl fmt⟩
